import Mathlib

/-!
Shallow embedding of `src/src/libtriton/arch/architecture.cpp`, the class
`triton::arch::Architecture`: an architecture selector that owns at most one
CPU model, forwards queries to it, and drives two disassembly loops over the
concrete memory of the active model.

The concrete CPU models (x86Cpu, x8664Cpu, Arm32Cpu, AArch64Cpu) and the
decoder are external to this translation unit; they are embedded as an
abstract `CpuModel` record carrying the capability surface the selector
consumes.  Construction of a model (which can fail with `std::nothrow`
allocation) is embedded as an allocator argument
`mkCpu : architecture_e -> Option CpuModel`.

Exceptions (`triton::exceptions::Architecture` with distinct messages) are
embedded as `Except ArchException`.  Methods that mutate the object while
possibly throwing return `Except ArchException Unit × Architecture`, so that a
partial mutation performed before a throw is kept, exactly as in C++.

Addresses are `uint64`; the embedding uses `Nat` and applies `% 2 ^ 64`
where the code increments an address.
-/

namespace Triton

/-- The architecture tags of `triton::arch::architecture_e`. -/
inductive architecture_e where
  | ARCH_INVALID
  | ARCH_AARCH64
  | ARCH_ARM32
  | ARCH_X86
  | ARCH_X86_64
deriving DecidableEq

/-- The tags handled by a non-default case of the switch in
`Architecture::setArchitecture`. -/
def architecture_e.isSupported : architecture_e → Bool
  | .ARCH_INVALID => false
  | _ => true

/-- Register identifiers (`triton::arch::register_e`), an opaque id space. -/
abbrev register_e := Nat

/-- A decoded instruction (`triton::arch::Instruction`): constructed from an
address and a raw opcode window; the decoder fills in `size` (`getSize`) and
the control-flow classification (`isControlFlow`). -/
structure Instruction where
  address : Nat
  opcodes : List Nat
  size : Nat
  controlFlow : Bool
deriving DecidableEq

/-- Abstract model of the external `triton::arch::CpuInterface`
implementations consumed by the selector.  Mutable per-model state (thumb
flag, exclusive-access flag, concrete memory) is explicit; the register table
and the decoder are function fields.  `mem a = some v` means a concrete value
has been recorded at address `a` (`isConcreteMemoryValueDefined`), and
`decode addr bytes = some (size, cf)` is a successful decode of the bytes at
`addr` into an instruction of the given size and control-flow classification,
`none` being a decode error thrown by the model. -/
structure CpuModel where
  isFlag : register_e → Bool
  isRegister : register_e → Bool
  isRegisterValid : register_e → Bool
  thumb : Bool
  exclusive : Bool
  numberOfRegisters : Nat
  gprSize : Nat
  gprBitSize : Nat
  mem : Nat → Option Nat
  decode : Nat → List Nat → Option (Nat × Bool)

/-- Model of the external `CpuInterface::clear`: the concrete state (memory
and mode flags) returns to power-on defaults; the register table and decoder
are static and survive. -/
def CpuModel.clear (c : CpuModel) : CpuModel :=
  { c with mem := fun _ => none, thumb := false, exclusive := false }

/-- Model of the external `getConcreteMemoryAreaValue(baseAddr, size)`:
a byte buffer of length `size` in which bytes never given a concrete value
read as 0.  Addresses are uint64, hence the modulus. -/
def CpuModel.readArea (c : CpuModel) (baseAddr size : Nat) : List Nat :=
  (List.range size).map (fun i => ((c.mem ((baseAddr + i) % 2 ^ 64)).getD 0))

/-- The decode the driver performs at address `a`: the model decodes the
16-byte lookahead window read at `a`. -/
def CpuModel.decodeAt (c : CpuModel) (a : Nat) : Option (Nat × Bool) :=
  c.decode a (c.readArea a 16)

/-- The size the driver advances by after a successful decode at `a`. -/
def CpuModel.sizeAt (c : CpuModel) (a : Nat) : Nat :=
  ((c.decodeAt a).getD (0, false)).1

/-- The address following `a` in a disassembly run (uint64 wrap-around). -/
def CpuModel.stepAddr (c : CpuModel) (a : Nat) : Nat :=
  (a + c.sizeAt a) % 2 ^ 64

/-- An address at which one iteration of the unbounded disassembly loop runs
to completion and continues: memory is defined there, the decode succeeds,
and the instruction is not control-flow. -/
def CpuModel.goodStep (c : CpuModel) (a : Nat) : Prop :=
  (c.mem a).isSome = true ∧ ∃ sz, c.decodeAt a = some (sz, false)

/-- The error conditions raised by this translation unit as
`triton::exceptions::Architecture`, distinguished by their message:
`noArchitecture` is the family of "You must define an architecture" /
"CPU undefined" messages, `unsupportedArchitecture` is
"Architecture not supported", `allocationFailure` is "Not enough memory",
and `decodeError` stands for an exception propagated out of the external
decoder unchanged. -/
inductive ArchException where
  | noArchitecture
  | unsupportedArchitecture
  | allocationFailure
  | decodeError
deriving DecidableEq

/-- State of a `triton::arch::Architecture` object: the recorded tag
(`this->arch`) and the owned model (`this->cpu`, a possibly-null
`unique_ptr`). -/
structure Architecture where
  arch : architecture_e
  cpu : Option CpuModel

/-- The constructor `Architecture::Architecture`: tag `ARCH_INVALID`,
no model. -/
def Architecture.init : Architecture :=
  { arch := architecture_e.ARCH_INVALID, cpu := none }

/-- `Architecture::getArchitecture`. -/
def Architecture.getArchitecture (s : Architecture) : architecture_e :=
  s.arch

/-- `Architecture::setArchitecture`.  The C++ body runs
`this->cpu.reset(new(std::nothrow) ...)` then throws on a null result:
`reset` destroys the previously owned model even when the allocation failed,
so the failure branch keeps `cpu := none` while `arch` is only assigned after
the switch, on success.  The default case throws before touching `cpu`. -/
def Architecture.setArchitecture (mkCpu : architecture_e → Option CpuModel)
    (s : Architecture) (a : architecture_e) :
    Except ArchException Unit × Architecture :=
  match a with
  | architecture_e.ARCH_X86_64 =>
    match mkCpu architecture_e.ARCH_X86_64 with
    | none => (Except.error ArchException.allocationFailure, { s with cpu := none })
    | some c =>
      (Except.ok (), { s with cpu := some c, arch := architecture_e.ARCH_X86_64 })
  | architecture_e.ARCH_X86 =>
    match mkCpu architecture_e.ARCH_X86 with
    | none => (Except.error ArchException.allocationFailure, { s with cpu := none })
    | some c =>
      (Except.ok (), { s with cpu := some c, arch := architecture_e.ARCH_X86 })
  | architecture_e.ARCH_AARCH64 =>
    match mkCpu architecture_e.ARCH_AARCH64 with
    | none => (Except.error ArchException.allocationFailure, { s with cpu := none })
    | some c =>
      (Except.ok (), { s with cpu := some c, arch := architecture_e.ARCH_AARCH64 })
  | architecture_e.ARCH_ARM32 =>
    match mkCpu architecture_e.ARCH_ARM32 with
    | none => (Except.error ArchException.allocationFailure, { s with cpu := none })
    | some c =>
      (Except.ok (), { s with cpu := some c, arch := architecture_e.ARCH_ARM32 })
  | architecture_e.ARCH_INVALID =>
    (Except.error ArchException.unsupportedArchitecture, s)

/-- `Architecture::clearArchitecture`: throws `NoArchitecture` without a
model, otherwise asks the model to reset its concrete state. -/
def Architecture.clearArchitecture (s : Architecture) :
    Except ArchException Unit × Architecture :=
  match s.cpu with
  | none => (Except.error ArchException.noArchitecture, s)
  | some c => (Except.ok (), { s with cpu := some c.clear })

/-- `Architecture::isValid`: the recorded tag differs from `ARCH_INVALID`. -/
def Architecture.isValid (s : Architecture) : Bool :=
  if s.arch = architecture_e.ARCH_INVALID then false else true

/-- `Architecture::isFlag`: false without a model. -/
def Architecture.isFlag (s : Architecture) (regId : register_e) : Bool :=
  match s.cpu with
  | none => false
  | some c => c.isFlag regId

/-- `Architecture::isRegister`: false without a model. -/
def Architecture.isRegister (s : Architecture) (regId : register_e) : Bool :=
  match s.cpu with
  | none => false
  | some c => c.isRegister regId

/-- `Architecture::isRegisterValid`: false without a model. -/
def Architecture.isRegisterValid (s : Architecture) (regId : register_e) : Bool :=
  match s.cpu with
  | none => false
  | some c => c.isRegisterValid regId

/-- `Architecture::isThumb`: false without a model. -/
def Architecture.isThumb (s : Architecture) : Bool :=
  match s.cpu with
  | none => false
  | some c => c.thumb

/-- `Architecture::setThumb`: guarded by `if (this->cpu)`; with no model the
call returns with no effect and no exception. -/
def Architecture.setThumb (s : Architecture) (state : Bool) : Architecture :=
  match s.cpu with
  | none => s
  | some c => { s with cpu := some { c with thumb := state } }

/-- `Architecture::isMemoryExclusiveAccess`: false without a model. -/
def Architecture.isMemoryExclusiveAccess (s : Architecture) : Bool :=
  match s.cpu with
  | none => false
  | some c => c.exclusive

/-- `Architecture::setMemoryExclusiveAccess`: guarded by `if (this->cpu)`;
with no model the call returns with no effect and no exception. -/
def Architecture.setMemoryExclusiveAccess (s : Architecture) (state : Bool) :
    Architecture :=
  match s.cpu with
  | none => s
  | some c => { s with cpu := some { c with exclusive := state } }

/-- `Architecture::numberOfRegisters`: 0 without a model. -/
def Architecture.numberOfRegisters (s : Architecture) : Nat :=
  match s.cpu with
  | none => 0
  | some c => c.numberOfRegisters

/-- `Architecture::gprSize`: 0 without a model. -/
def Architecture.gprSize (s : Architecture) : Nat :=
  match s.cpu with
  | none => 0
  | some c => c.gprSize

/-- `Architecture::gprBitSize`: 0 without a model. -/
def Architecture.gprBitSize (s : Architecture) : Nat :=
  match s.cpu with
  | none => 0
  | some c => c.gprBitSize

/-- `Architecture::isConcreteMemoryValueDefined(addr)` (size 1, the form the
disassembly driver uses): throws `NoArchitecture` without a model. -/
def Architecture.isConcreteMemoryValueDefined (s : Architecture) (addr : Nat) :
    Except ArchException Bool :=
  match s.cpu with
  | none => Except.error ArchException.noArchitecture
  | some c => Except.ok (c.mem addr).isSome

/-- `Architecture::getConcreteMemoryAreaValue`: throws `NoArchitecture`
without a model, otherwise forwards to the model. -/
def Architecture.getConcreteMemoryAreaValue (s : Architecture)
    (baseAddr size : Nat) : Except ArchException (List Nat) :=
  match s.cpu with
  | none => Except.error ArchException.noArchitecture
  | some c => Except.ok (c.readArea baseAddr size)

/-- `Architecture::disassembly(Instruction&)`: throws `NoArchitecture`
without a model, otherwise the model decodes the instruction bytes, filling
in size and control-flow classification; a decode failure propagates. -/
def Architecture.disassemblyInst (s : Architecture) (inst : Instruction) :
    Except ArchException Instruction :=
  match s.cpu with
  | none => Except.error ArchException.noArchitecture
  | some c =>
    match c.decode inst.address inst.opcodes with
    | none => Except.error ArchException.decodeError
    | some (sz, cf) => Except.ok { inst with size := sz, controlFlow := cf }

/-- `Architecture::disassembly(uint64 addr, usize count)`, the bounded
driver: `while (count--) { if undefined break; read 16 bytes; decode;
push_back; addr += size; }`.  An exception thrown mid-loop propagates and the
collected vector is lost, hence the whole call errors. -/
def Architecture.disassembly (s : Architecture) (addr count : Nat) :
    Except ArchException (List Instruction) :=
  match count with
  | 0 => Except.ok []
  | Nat.succ n =>
    match s.isConcreteMemoryValueDefined addr with
    | Except.error e => Except.error e
    | Except.ok false => Except.ok []
    | Except.ok true =>
      match s.getConcreteMemoryAreaValue addr 16 with
      | Except.error e => Except.error e
      | Except.ok opcodes =>
        match s.disassemblyInst
            { address := addr, opcodes := opcodes, size := 0, controlFlow := false } with
        | Except.error e => Except.error e
        | Except.ok inst =>
          match s.disassembly ((addr + inst.size) % 2 ^ 64) n with
          | Except.error e => Except.error e
          | Except.ok rest => Except.ok (inst :: rest)

/-- `Architecture::disassembly(uint64 addr)`, the unbounded driver:
`do { if undefined break; read; decode; push_back; addr += size; }
while (!ret.back().isControlFlow());`.  The C++ loop has no intrinsic bound,
so the embedding counts loop iterations with fuel: `none` means the loop ran
longer than the given fuel. -/
def Architecture.disassemblyAll (s : Architecture) :
    Nat → Nat → Option (Except ArchException (List Instruction))
  | 0, _ => none
  | Nat.succ f, addr =>
    match s.isConcreteMemoryValueDefined addr with
    | Except.error e => some (Except.error e)
    | Except.ok false => some (Except.ok [])
    | Except.ok true =>
      match s.getConcreteMemoryAreaValue addr 16 with
      | Except.error e => some (Except.error e)
      | Except.ok opcodes =>
        match s.disassemblyInst
            { address := addr, opcodes := opcodes, size := 0, controlFlow := false } with
        | Except.error e => some (Except.error e)
        | Except.ok inst =>
          if inst.controlFlow then some (Except.ok [inst])
          else
            match s.disassemblyAll f ((addr + inst.size) % 2 ^ 64) with
            | none => none
            | some (Except.error e) => some (Except.error e)
            | some (Except.ok rest) => some (Except.ok (inst :: rest))

/-- The unbounded driver terminates from `addr`: some amount of fuel
suffices for the loop to exit (normally or with an exception). -/
def Architecture.TerminatesFrom (s : Architecture) (addr : Nat) : Prop :=
  ∃ fuel, (s.disassemblyAll fuel addr).isSome = true

/-- Characterisation of a disassembled run produced by either driver with
model `c`: each instruction sits at the current address, carries the 16-byte
window read there, its size and classification are those the model decodes
from that window, and the next instruction follows at the current address
plus the decoded size (mod 2^64). -/
def CpuModel.wellChained (c : CpuModel) : Nat → List Instruction → Bool
  | _, [] => true
  | a, i :: rest =>
    decide (i.address = a) &&
    decide (i.opcodes = c.readArea a 16) &&
    decide (c.decodeAt a = some (i.size, i.controlFlow)) &&
    c.wellChained ((a + i.size) % 2 ^ 64) rest

/-- A sample concrete model used to exercise the theorems on closed inputs:
ten defined bytes at addresses 0..9, a decoder that yields a 4-byte ordinary
instruction everywhere except address 8, where it yields a 2-byte
control-flow instruction. -/
def demoCpu : CpuModel :=
  { isFlag := fun _ => false
    isRegister := fun r => decide (r < 8)
    isRegisterValid := fun r => decide (r < 8)
    thumb := false
    exclusive := false
    numberOfRegisters := 8
    gprSize := 8
    gprBitSize := 64
    mem := fun a => if a < 10 then some 144 else none
    decode := fun a _ => if a = 8 then some (2, true) else some (4, false) }

/-- An allocator in which every model construction succeeds. -/
def demoAlloc : architecture_e → Option CpuModel := fun _ => some demoCpu

/-- An allocator in which every model construction fails
(`new(std::nothrow)` returns null). -/
def failAlloc : architecture_e → Option CpuModel := fun _ => none

/-- The concrete Architecture state used on closed inputs: ARCH_X86 selected
with the sample model active. -/
def demoArch : Architecture :=
  { arch := architecture_e.ARCH_X86, cpu := some demoCpu }

/-- The run the unbounded driver produces on `demoArch` from address 0:
three instructions, the third being the first control-flow one. -/
def demoRun : List Instruction :=
  [{ address := 0, size := 4, controlFlow := false,
     opcodes := [144, 144, 144, 144, 144, 144, 144, 144, 144, 144, 0, 0, 0, 0, 0, 0] },
   { address := 4, size := 4, controlFlow := false,
     opcodes := [144, 144, 144, 144, 144, 144, 0, 0, 0, 0, 0, 0, 0, 0, 0, 0] },
   { address := 8, size := 2, controlFlow := true,
     opcodes := [144, 144, 0, 0, 0, 0, 0, 0, 0, 0, 0, 0, 0, 0, 0, 0] }]

/-- A model on which the unbounded driver never terminates: memory carries a
concrete value at every address and the decoder always yields a 1-byte
non-control-flow instruction — in particular it never yields a zero-size
instruction. -/
def loopCpu : CpuModel :=
  { isFlag := fun _ => false
    isRegister := fun _ => false
    isRegisterValid := fun _ => false
    thumb := false
    exclusive := false
    numberOfRegisters := 0
    gprSize := 0
    gprBitSize := 0
    mem := fun _ => some 144
    decode := fun _ _ => some (1, false) }

/-- An Architecture state owning `loopCpu`. -/
def loopArch : Architecture :=
  { arch := architecture_e.ARCH_X86, cpu := some loopCpu }

/-- C10: in every state — in particular with no model active — and at every
address, the bounded driver invoked with count 0 returns the empty sequence
without reading memory and without raising any error. -/
theorem c10_zero_count (s : Architecture) (addr : Nat) :
    s.disassembly addr 0 = Except.ok [] := rfl

/-- C5: for every unsupported tag and every prior state, setArchitecture
fails with unsupportedArchitecture and returns the state completely
unchanged, so getArchitecture and the owned model are as before the call. -/
theorem c5_unsupported (mkCpu : architecture_e → Option CpuModel)
    (s : Architecture) (u : architecture_e) (hu : u.isSupported = false) :
    s.setArchitecture mkCpu u =
      (Except.error ArchException.unsupportedArchitecture, s) := by
  cases u <;> simp_all [architecture_e.isSupported, Architecture.setArchitecture]

/-- Witness for C5 at the concrete unsupported tag ARCH_INVALID. -/
theorem c5_witness :
    architecture_e.ARCH_INVALID.isSupported = false ∧
    Architecture.init.setArchitecture demoAlloc architecture_e.ARCH_INVALID =
      (Except.error ArchException.unsupportedArchitecture, Architecture.init) :=
  ⟨rfl, c5_unsupported demoAlloc Architecture.init architecture_e.ARCH_INVALID rfl⟩

/-- C7: for every supported tag whose model construction succeeds,
setArchitecture succeeds, getArchitecture then returns that tag, and
isValid returns true. -/
theorem c7_supported_set (mkCpu : architecture_e → Option CpuModel)
    (s : Architecture) (t : architecture_e) (c : CpuModel)
    (ht : t.isSupported = true) (hmk : mkCpu t = some c) :
    (s.setArchitecture mkCpu t).1 = Except.ok () ∧
    (s.setArchitecture mkCpu t).2.getArchitecture = t ∧
    (s.setArchitecture mkCpu t).2.isValid = true := by
  cases t <;>
    simp_all [architecture_e.isSupported, Architecture.setArchitecture,
      Architecture.getArchitecture, Architecture.isValid]

/-- Witness for C7 at the concrete tag ARCH_X86 with the sample model. -/
theorem c7_witness :
    architecture_e.ARCH_X86.isSupported = true ∧
    demoAlloc architecture_e.ARCH_X86 = some demoCpu ∧
    ((Architecture.init.setArchitecture demoAlloc architecture_e.ARCH_X86).1 =
        Except.ok () ∧
      (Architecture.init.setArchitecture demoAlloc architecture_e.ARCH_X86).2.getArchitecture =
        architecture_e.ARCH_X86 ∧
      (Architecture.init.setArchitecture demoAlloc architecture_e.ARCH_X86).2.isValid =
        true) :=
  ⟨rfl, rfl,
    c7_supported_set demoAlloc Architecture.init architecture_e.ARCH_X86 demoCpu rfl rfl⟩

/-- C6 counterexample: with no model active (the initial state), setThumb
and setMemoryExclusiveAccess return the state unchanged; their bodies are a
plain guard with no throw, so the calls are silently ignored rather than
rejected, contradicting the claim that they fail. -/
theorem c6_counterexample :
    Architecture.init.setThumb true = Architecture.init ∧
    Architecture.init.setMemoryExclusiveAccess true = Architecture.init :=
  ⟨rfl, rfl⟩

/-- C6 amended: invoking setThumb or setMemoryExclusiveAccess with no model
active silently does nothing: the state is returned unchanged and no error
is raised. -/
theorem c6_silent_noop (s : Architecture) (b b2 : Bool) (h : s.cpu = none) :
    s.setThumb b = s ∧ s.setMemoryExclusiveAccess b2 = s := by
  constructor <;>
    simp [Architecture.setThumb, Architecture.setMemoryExclusiveAccess, h]

/-- Witness for the amended C6 in the initial state. -/
theorem c6_witness :
    Architecture.init.cpu = none ∧
    (Architecture.init.setThumb false = Architecture.init ∧
      Architecture.init.setMemoryExclusiveAccess false = Architecture.init) :=
  ⟨rfl, c6_silent_noop Architecture.init false false rfl⟩

/-- C1 counterexample: select ARCH_X86 with a succeeding allocator, then
call setArchitecture(ARCH_X86_64) with a failing allocator.  The second call
errors with allocationFailure, but the previously active model is not left
untouched: the reset performed before the null check destroyed it, cpu is
now empty, and a model-dependent operation (clearArchitecture) fails with
noArchitecture instead of succeeding against the old model. -/
theorem c1_counterexample :
    (((Architecture.init.setArchitecture demoAlloc architecture_e.ARCH_X86).2.setArchitecture
        failAlloc architecture_e.ARCH_X86_64).1 =
      Except.error ArchException.allocationFailure) ∧
    (((Architecture.init.setArchitecture demoAlloc architecture_e.ARCH_X86).2.setArchitecture
        failAlloc architecture_e.ARCH_X86_64).2.cpu = none) ∧
    ((((Architecture.init.setArchitecture demoAlloc architecture_e.ARCH_X86).2.setArchitecture
        failAlloc architecture_e.ARCH_X86_64).2.clearArchitecture).1 =
      Except.error ArchException.noArchitecture) :=
  ⟨rfl, rfl, rfl⟩

/-- C1 amended: if setArchitecture(tag) fails with allocationFailure for a
supported tag while a previously selected model was active, the prior model
is destroyed rather than kept: the selector afterwards owns no model, so
model-dependent operations fail with noArchitecture, while the recorded tag
still holds its previous value. -/
theorem c1_alloc_failure_state (mkCpu : architecture_e → Option CpuModel)
    (s : Architecture) (t : architecture_e) (c : CpuModel)
    (_hc : s.cpu = some c) (ht : t.isSupported = true) (hmk : mkCpu t = none) :
    (s.setArchitecture mkCpu t).1 = Except.error ArchException.allocationFailure ∧
    (s.setArchitecture mkCpu t).2.cpu = none ∧
    (s.setArchitecture mkCpu t).2.arch = s.arch ∧
    ((s.setArchitecture mkCpu t).2.clearArchitecture).1 =
      Except.error ArchException.noArchitecture := by
  cases t <;>
    simp_all [architecture_e.isSupported, Architecture.setArchitecture,
      Architecture.clearArchitecture]

/-- Witness for the amended C1: ARCH_X86 active, allocation of ARCH_X86_64
fails. -/
theorem c1_witness :
    ((Architecture.init.setArchitecture demoAlloc architecture_e.ARCH_X86).2.cpu =
        some demoCpu ∧
      architecture_e.ARCH_X86_64.isSupported = true ∧
      failAlloc architecture_e.ARCH_X86_64 = none) ∧
    (((Architecture.init.setArchitecture demoAlloc architecture_e.ARCH_X86).2.setArchitecture
        failAlloc architecture_e.ARCH_X86_64).1 =
        Except.error ArchException.allocationFailure ∧
      ((Architecture.init.setArchitecture demoAlloc architecture_e.ARCH_X86).2.setArchitecture
        failAlloc architecture_e.ARCH_X86_64).2.cpu = none ∧
      ((Architecture.init.setArchitecture demoAlloc architecture_e.ARCH_X86).2.setArchitecture
        failAlloc architecture_e.ARCH_X86_64).2.arch =
        (Architecture.init.setArchitecture demoAlloc architecture_e.ARCH_X86).2.arch ∧
      (((Architecture.init.setArchitecture demoAlloc architecture_e.ARCH_X86).2.setArchitecture
        failAlloc architecture_e.ARCH_X86_64).2.clearArchitecture).1 =
        Except.error ArchException.noArchitecture) :=
  ⟨⟨rfl, rfl, rfl⟩,
    c1_alloc_failure_state failAlloc
      (Architecture.init.setArchitecture demoAlloc architecture_e.ARCH_X86).2
      architecture_e.ARCH_X86_64 demoCpu rfl rfl rfl⟩

/-- C8 counterexample: after setArchitecture(ARCH_X86) succeeds and a later
setArchitecture(ARCH_X86_64) fails on allocation, no model is active (cpu is
empty) yet isValid() returns true, because isValid consults the recorded
tag, which still holds ARCH_X86; so "whenever no model is active, isValid()
returns false" fails on this reachable state. -/
theorem c8_counterexample :
    (((Architecture.init.setArchitecture demoAlloc architecture_e.ARCH_X86).2.setArchitecture
        failAlloc architecture_e.ARCH_X86_64).2.cpu = none) ∧
    (((Architecture.init.setArchitecture demoAlloc architecture_e.ARCH_X86).2.setArchitecture
        failAlloc architecture_e.ARCH_X86_64).2.isValid = true) :=
  ⟨rfl, rfl⟩

/-- C8 amended: in the initial state isValid() returns false; and in every
state with no model active, isFlag, isRegister, isRegisterValid, isThumb and
isMemoryExclusiveAccess return false rather than failing, and
numberOfRegisters, gprSize and gprBitSize return zero rather than failing.
(isValid can return true with no model active only in the degenerate state
left behind by an allocation failure.) -/
theorem c8_defaults (s : Architecture) (regId : register_e) (h : s.cpu = none) :
    Architecture.init.isValid = false ∧
    s.isFlag regId = false ∧ s.isRegister regId = false ∧
    s.isRegisterValid regId = false ∧ s.isThumb = false ∧
    s.isMemoryExclusiveAccess = false ∧ s.numberOfRegisters = 0 ∧
    s.gprSize = 0 ∧ s.gprBitSize = 0 := by
  refine ⟨rfl, ?_, ?_, ?_, ?_, ?_, ?_, ?_, ?_⟩ <;>
    simp [Architecture.isFlag, Architecture.isRegister,
      Architecture.isRegisterValid, Architecture.isThumb,
      Architecture.isMemoryExclusiveAccess, Architecture.numberOfRegisters,
      Architecture.gprSize, Architecture.gprBitSize, h]

/-- Witness for the amended C8 in the initial state. -/
theorem c8_witness :
    Architecture.init.cpu = none ∧
    (Architecture.init.isValid = false ∧
      Architecture.init.isFlag 0 = false ∧
      Architecture.init.isRegister 0 = false ∧
      Architecture.init.isRegisterValid 0 = false ∧
      Architecture.init.isThumb = false ∧
      Architecture.init.isMemoryExclusiveAccess = false ∧
      Architecture.init.numberOfRegisters = 0 ∧
      Architecture.init.gprSize = 0 ∧
      Architecture.init.gprBitSize = 0) :=
  ⟨rfl, c8_defaults Architecture.init 0 rfl⟩

/-- C9: clearArchitecture fails with noArchitecture and changes nothing when
no model is active; after a successful setArchitecture(T), clearArchitecture
succeeds, the model is still owned — merely reset through its clear
operation, not deallocated — and getArchitecture still returns T. -/
theorem c9_clear (s0 s : Architecture) (mkCpu : architecture_e → Option CpuModel)
    (t : architecture_e) (c : CpuModel)
    (h0 : s0.cpu = none) (ht : t.isSupported = true) (hmk : mkCpu t = some c) :
    s0.clearArchitecture = (Except.error ArchException.noArchitecture, s0) ∧
    ((s.setArchitecture mkCpu t).2.clearArchitecture).1 = Except.ok () ∧
    ((s.setArchitecture mkCpu t).2.clearArchitecture).2.cpu = some c.clear ∧
    ((s.setArchitecture mkCpu t).2.clearArchitecture).2.getArchitecture = t := by
  refine ⟨by simp [Architecture.clearArchitecture, h0], ?_⟩
  cases t <;>
    simp_all [architecture_e.isSupported, Architecture.setArchitecture,
      Architecture.clearArchitecture, Architecture.getArchitecture]

/-- Witness for C9: no-model failure in the initial state and the
set-then-clear sequence at the concrete tag ARCH_AARCH64. -/
theorem c9_witness :
    (Architecture.init.cpu = none ∧
      architecture_e.ARCH_AARCH64.isSupported = true ∧
      demoAlloc architecture_e.ARCH_AARCH64 = some demoCpu) ∧
    (Architecture.init.clearArchitecture =
        (Except.error ArchException.noArchitecture, Architecture.init) ∧
      ((Architecture.init.setArchitecture demoAlloc architecture_e.ARCH_AARCH64).2.clearArchitecture).1 =
        Except.ok () ∧
      ((Architecture.init.setArchitecture demoAlloc architecture_e.ARCH_AARCH64).2.clearArchitecture).2.cpu =
        some demoCpu.clear ∧
      ((Architecture.init.setArchitecture demoAlloc architecture_e.ARCH_AARCH64).2.clearArchitecture).2.getArchitecture =
        architecture_e.ARCH_AARCH64) :=
  ⟨⟨rfl, rfl, rfl⟩,
    c9_clear Architecture.init Architecture.init demoAlloc
      architecture_e.ARCH_AARCH64 demoCpu rfl rfl rfl⟩

/-- Unfolding equation of `wellChained` on the empty run. -/
theorem wellChained_nil (c : CpuModel) (a : Nat) :
    c.wellChained a [] = true := rfl

/-- Unfolding equation of `wellChained` on a non-empty run. -/
theorem wellChained_cons (c : CpuModel) (a : Nat) (i : Instruction)
    (rest : List Instruction) :
    c.wellChained a (i :: rest) =
      (decide (i.address = a) && decide (i.opcodes = c.readArea a 16) &&
        decide (c.decodeAt a = some (i.size, i.controlFlow)) &&
        c.wellChained ((a + i.size) % 2 ^ 64) rest) := rfl

/-- With a model active, a run of the bounded driver that starts on
undefined memory is the empty sequence and no error. -/
theorem disassembly_undefined (s : Architecture) (c : CpuModel)
    (hc : s.cpu = some c) (addr : Nat) (hmem : c.mem addr = none) :
    ∀ count, s.disassembly addr count = Except.ok []
  | 0 => rfl
  | Nat.succ _ => by
    simp [Architecture.disassembly, Architecture.isConcreteMemoryValueDefined,
      hc, hmem]

/-- Every sequence the bounded driver returns successfully has at most
`count` elements and is well chained from the start address. -/
theorem disassembly_ok_spec (s : Architecture) (c : CpuModel)
    (hc : s.cpu = some c) :
    ∀ count addr res, s.disassembly addr count = Except.ok res →
      res.length ≤ count ∧ c.wellChained addr res = true := by
  intro count
  induction count with
  | zero =>
    intro addr res h
    simp only [Architecture.disassembly, Except.ok.injEq] at h
    subst h
    exact ⟨Nat.le_refl 0, rfl⟩
  | succ n ih =>
    intro addr res h
    simp only [Architecture.disassembly, Architecture.isConcreteMemoryValueDefined,
      Architecture.getConcreteMemoryAreaValue, Architecture.disassemblyInst,
      hc] at h
    rcases hmem : c.mem addr with _ | v <;> rw [hmem] at h <;>
      simp only [Option.isSome_none, Option.isSome_some] at h
    · simp only [Except.ok.injEq] at h
      subst h
      exact ⟨Nat.zero_le _, rfl⟩
    · rcases hdec : c.decode addr (c.readArea addr 16) with _ | ⟨sz, cf⟩ <;>
        rw [hdec] at h
      · simp at h
      · rcases hrec : s.disassembly ((addr + sz) % 2 ^ 64) n with e | rest <;>
          simp only [hrec] at h
        · simp at h
        · simp only [Except.ok.injEq] at h
          subst h
          obtain ⟨hlen, hchain⟩ := ih _ _ hrec
          refine ⟨by simpa using Nat.succ_le_succ hlen, ?_⟩
          rw [wellChained_cons]
          simp only [Bool.and_eq_true, decide_eq_true_eq, CpuModel.decodeAt]
          exact ⟨⟨⟨trivial, trivial⟩, hdec⟩, hchain⟩

/-- When the decoder is total, the bounded driver never raises an error. -/
theorem disassembly_total (s : Architecture) (c : CpuModel)
    (hc : s.cpu = some c)
    (hdec : ∀ a bytes, (c.decode a bytes).isSome = true) :
    ∀ count addr, ∃ res, s.disassembly addr count = Except.ok res := by
  intro count
  induction count with
  | zero => intro addr; exact ⟨[], rfl⟩
  | succ n ih =>
    intro addr
    rcases hmem : c.mem addr with _ | v
    · exact ⟨[], disassembly_undefined s c hc addr hmem (n + 1)⟩
    · rcases hp : c.decode addr (c.readArea addr 16) with _ | ⟨sz, cf⟩
      · exact absurd (hdec addr (c.readArea addr 16)) (by simp [hp])
      · obtain ⟨rest, hrest⟩ := ih ((addr + sz) % 2 ^ 64)
        refine ⟨{ address := addr, opcodes := c.readArea addr 16, size := sz,
                  controlFlow := cf } :: rest, ?_⟩
        simp only [Architecture.disassembly, Architecture.isConcreteMemoryValueDefined,
          Architecture.getConcreteMemoryAreaValue, Architecture.disassemblyInst,
          hc, hmem, Option.isSome_some, hp, hrest]

/-- With a model active, a run of the unbounded driver that starts on
undefined memory is the empty sequence and no error (one loop iteration of
fuel suffices). -/
theorem disassemblyAll_undefined (s : Architecture) (c : CpuModel)
    (hc : s.cpu = some c) (addr : Nat) (hmem : c.mem addr = none) (f : Nat) :
    s.disassemblyAll (f + 1) addr = some (Except.ok []) := by
  simp [Architecture.disassemblyAll, Architecture.isConcreteMemoryValueDefined,
    hc, hmem]

/-- Every sequence the unbounded driver returns successfully is well chained,
all its instructions but the last are not control-flow, it is empty exactly
when the start address is undefined, and its last instruction either is
control-flow or is followed by an undefined address. -/
theorem disassemblyAll_ok_spec (s : Architecture) (c : CpuModel)
    (hc : s.cpu = some c) :
    ∀ f addr res, s.disassemblyAll f addr = some (Except.ok res) →
      c.wellChained addr res = true ∧
      (∀ i ∈ res.dropLast, i.controlFlow = false) ∧
      (res = [] ↔ c.mem addr = none) ∧
      (∀ i, res.getLast? = some i →
        i.controlFlow = true ∨ c.mem ((i.address + i.size) % 2 ^ 64) = none) := by
  intro f
  induction f with
  | zero =>
    intro addr res h
    simp [Architecture.disassemblyAll] at h
  | succ n ih =>
    intro addr res h
    simp only [Architecture.disassemblyAll, Architecture.isConcreteMemoryValueDefined,
      Architecture.getConcreteMemoryAreaValue, Architecture.disassemblyInst,
      hc] at h
    rcases hmem : c.mem addr with _ | v <;> rw [hmem] at h <;>
      simp only [Option.isSome_none, Option.isSome_some] at h
    · simp only [Option.some.injEq, Except.ok.injEq] at h
      subst h
      simp [CpuModel.wellChained, hmem]
    · rcases hdec : c.decode addr (c.readArea addr 16) with _ | ⟨sz, cf⟩ <;>
        rw [hdec] at h
      · simp at h
      · cases cf with
        | true =>
          simp only [if_true, Option.some.injEq, Except.ok.injEq] at h
          subst h
          refine ⟨by simp [CpuModel.wellChained, CpuModel.decodeAt, hdec], ?_, ?_, ?_⟩
          · simp [List.dropLast]
          · simp [hmem]
          · intro i hi
            simp only [List.getLast?_singleton, Option.some.injEq] at hi
            subst hi
            exact Or.inl rfl
        | false =>
          simp only [if_false, Bool.false_eq_true] at h
          rcases hrec : s.disassemblyAll n ((addr + sz) % 2 ^ 64) with _ | er <;>
            rw [hrec] at h
          · simp at h
          · rcases er with e | rest
            · simp at h
            · simp only [Option.some.injEq, Except.ok.injEq] at h
              subst h
              obtain ⟨hch, hdl, hiff, hlast⟩ := ih _ _ hrec
              refine ⟨?_, ?_, ?_, ?_⟩
              · rw [wellChained_cons]
                simp only [Bool.and_eq_true, decide_eq_true_eq, CpuModel.decodeAt]
                exact ⟨⟨⟨trivial, trivial⟩, hdec⟩, hch⟩
              · intro i hi
                cases rest with
                | nil => simp [List.dropLast] at hi
                | cons b t =>
                  simp only [List.dropLast, List.mem_cons] at hi
                  rcases hi with rfl | hi
                  · rfl
                  · exact hdl i (by simpa [List.dropLast] using hi)
              · simp [hmem]
              · intro i hi
                cases rest with
                | nil =>
                  simp only [List.getLast?_singleton, Option.some.injEq] at hi
                  subst hi
                  exact Or.inr (hiff.mp rfl)
                | cons b t =>
                  rw [List.getLast?_cons_cons] at hi
                  exact hlast i hi

/-- C3: every sequence the unbounded driver returns is decoded
consecutively (well chained: each instruction carries the 16-byte window at
its address and the next address advances by the decoded size); the run
stops inclusively at the first control-flow instruction — all instructions
before the last are not control-flow and the last is control-flow unless the
following address is undefined — and it is empty exactly when the starting
address is undefined, in which case the call returns the empty sequence and
no error. -/
theorem c3_unbounded_structure (s : Architecture) (c : CpuModel)
    (fuel addr : Nat) (res : List Instruction) (hc : s.cpu = some c)
    (h : s.disassemblyAll fuel addr = some (Except.ok res)) :
    c.wellChained addr res = true ∧
    (∀ i ∈ res.dropLast, i.controlFlow = false) ∧
    (res = [] ↔ c.mem addr = none) ∧
    (∀ i, res.getLast? = some i →
      i.controlFlow = true ∨ c.mem ((i.address + i.size) % 2 ^ 64) = none) ∧
    (c.mem addr = none → ∀ g, s.disassemblyAll (g + 1) addr = some (Except.ok [])) := by
  obtain ⟨h1, h2, h3, h4⟩ := disassemblyAll_ok_spec s c hc fuel addr res h
  exact ⟨h1, h2, h3, h4, fun hm g => disassemblyAll_undefined s c hc addr hm g⟩

/-- C4: the bounded driver decodes at most `count` instructions; every
successful run is well chained — each instruction carries the 16-byte
lookahead window read at its address, its size and classification are the
decoded ones, and addresses advance by the decoded size, not by 16; an
undefined starting address yields the empty sequence rather than an error,
and with a total decoder the driver always returns a (possibly shorter)
sequence rather than an error. -/
theorem c4_bounded_structure (s : Architecture) (c : CpuModel)
    (addr count : Nat) (hc : s.cpu = some c) :
    (c.mem addr = none → s.disassembly addr count = Except.ok []) ∧
    (∀ res, s.disassembly addr count = Except.ok res →
      res.length ≤ count ∧ c.wellChained addr res = true) ∧
    ((∀ a bytes, (c.decode a bytes).isSome = true) →
      ∃ res, s.disassembly addr count = Except.ok res ∧ res.length ≤ count) := by
  refine ⟨fun hmem => disassembly_undefined s c hc addr hmem count,
    fun res h => disassembly_ok_spec s c hc count addr res h, fun hdec => ?_⟩
  obtain ⟨res, h⟩ := disassembly_total s c hc hdec count addr
  exact ⟨res, h, (disassembly_ok_spec s c hc count addr res h).1⟩

/-- Witness for C3: on the sample model the unbounded run from address 0
returns exactly three instructions, the third being the first and only
control-flow one, and the structural conclusions hold for it. -/
theorem c3_witness :
    (demoArch.cpu = some demoCpu ∧
      demoArch.disassemblyAll 5 0 = some (Except.ok demoRun) ∧
      demoRun.length = 3 ∧
      demoRun.map Instruction.controlFlow = [false, false, true]) ∧
    (demoCpu.wellChained 0 demoRun = true ∧
      (∀ i ∈ demoRun.dropLast, i.controlFlow = false) ∧
      (demoRun = [] ↔ demoCpu.mem 0 = none) ∧
      (∀ i, demoRun.getLast? = some i →
        i.controlFlow = true ∨ demoCpu.mem ((i.address + i.size) % 2 ^ 64) = none) ∧
      (demoCpu.mem 0 = none →
        ∀ g, demoArch.disassemblyAll (g + 1) 0 = some (Except.ok []))) :=
  ⟨⟨rfl, rfl, rfl, rfl⟩, c3_unbounded_structure demoArch demoCpu 5 0 demoRun rfl rfl⟩

/-- Witness for C4 on the sample model at address 0 with count 5: memory
runs out after three instructions, so a shorter well-chained sequence comes
back with no error. -/
theorem c4_witness :
    (demoArch.cpu = some demoCpu ∧
      demoArch.disassembly 0 5 = Except.ok demoRun ∧ demoRun.length ≤ 5) ∧
    ((demoCpu.mem 0 = none → demoArch.disassembly 0 5 = Except.ok []) ∧
      (∀ res, demoArch.disassembly 0 5 = Except.ok res →
        res.length ≤ 5 ∧ demoCpu.wellChained 0 res = true) ∧
      ((∀ a bytes, (demoCpu.decode a bytes).isSome = true) →
        ∃ res, demoArch.disassembly 0 5 = Except.ok res ∧ res.length ≤ 5)) :=
  ⟨⟨rfl, rfl, by decide⟩, c4_bounded_structure demoArch demoCpu 0 5 rfl⟩

/-- On `loopArch` the unbounded driver exhausts any amount of fuel: every
address is defined and every decode yields a 1-byte ordinary instruction. -/
theorem loopArch_no_exit : ∀ f a, loopArch.disassemblyAll f a = none := by
  intro f
  induction f with
  | zero => intro a; rfl
  | succ n ih =>
    intro a
    have hc : loopArch.cpu = some loopCpu := rfl
    have hmem : loopCpu.mem a = some 144 := rfl
    have hdec : loopCpu.decode a (loopCpu.readArea a 16) = some (1, false) := rfl
    simp only [Architecture.disassemblyAll, Architecture.isConcreteMemoryValueDefined,
      Architecture.getConcreteMemoryAreaValue, Architecture.disassemblyInst, hc,
      hmem, Option.isSome_some, hdec, if_false, Bool.false_eq_true, ih]

/-- C2 counterexample: a model whose decoder never yields a zero-size
instruction, on which the unbounded driver started at address 0 still fails
to terminate — it exhausts every amount of fuel, because memory holds a
concrete value at every address and no decoded instruction is control-flow,
so the loop neither meets undefined memory nor a control-flow stop. -/
theorem c2_counterexample :
    (∀ a bytes n cf, loopCpu.decode a bytes = some (n, cf) → 1 ≤ n) ∧
    ¬ loopArch.TerminatesFrom 0 := by
  constructor
  · intro a bytes n cf h
    simp only [loopCpu, Option.some.injEq, Prod.mk.injEq] at h
    obtain ⟨h1, _⟩ := h
    omega
  · rintro ⟨f, hf⟩
    rw [loopArch_no_exit f 0] at hf
    simp at hf

/-- Addresses along a disassembly run stay below 2^64. -/
theorem stepAddr_iterate_lt (c : CpuModel) (addr : Nat) (ha : addr < 2 ^ 64) :
    ∀ k, c.stepAddr^[k] addr < 2 ^ 64
  | 0 => ha
  | k + 1 => by
    rw [Function.iterate_succ_apply']
    simp only [CpuModel.stepAddr]
    exact Nat.mod_lt _ (by norm_num)

/-- If the unbounded driver exhausts fuel `f` from `a`, then the first `f`
iterates of the step map from `a` are all addresses at which the loop body
ran to completion and continued. -/
theorem disassemblyAll_none_good (s : Architecture) (c : CpuModel)
    (hc : s.cpu = some c) :
    ∀ f a, s.disassemblyAll f a = none → ∀ k, k < f →
      c.goodStep (c.stepAddr^[k] a) := by
  intro f
  induction f with
  | zero => intro a _ k hk; omega
  | succ n ih =>
    intro a h k hk
    simp only [Architecture.disassemblyAll, Architecture.isConcreteMemoryValueDefined,
      Architecture.getConcreteMemoryAreaValue, Architecture.disassemblyInst,
      hc] at h
    rcases hmem : c.mem a with _ | v <;> rw [hmem] at h <;>
      simp only [Option.isSome_none, Option.isSome_some] at h
    · simp at h
    · rcases hdec : c.decode a (c.readArea a 16) with _ | ⟨sz, cf⟩ <;>
        rw [hdec] at h
      · simp at h
      · cases cf with
        | true => simp at h
        | false =>
          simp only [if_false, Bool.false_eq_true] at h
          rcases hrec : s.disassemblyAll n ((a + sz) % 2 ^ 64) with _ | er <;>
            rw [hrec] at h
          · have hgood0 : c.goodStep a :=
              ⟨by simp [hmem], sz, by simp [CpuModel.decodeAt, hdec]⟩
            have hstep : c.stepAddr a = (a + sz) % 2 ^ 64 := by
              simp [CpuModel.stepAddr, CpuModel.sizeAt, CpuModel.decodeAt, hdec]
            cases k with
            | zero => simpa using hgood0
            | succ m =>
              rw [Function.iterate_succ_apply, hstep]
              exact ih _ hrec m (by omega)
          · rcases er with e | rest <;> simp at h

/-- Along a run of addresses at which the loop continues, the `m`-th iterate
of the step map is the start plus the accumulated decoded sizes mod 2^64,
and that accumulated total lies between `m` and `bound * m` when every
decoded size lies between 1 and `bound`. -/
theorem chain_sum (c : CpuModel) (bound : Nat)
    (hsz : ∀ a n cf, c.decodeAt a = some (n, cf) → 1 ≤ n ∧ n ≤ bound) :
    ∀ (m a : Nat), a < 2 ^ 64 → (∀ k, k < m → c.goodStep (c.stepAddr^[k] a)) →
      ∃ t, c.stepAddr^[m] a = (a + t) % 2 ^ 64 ∧ m ≤ t ∧ t ≤ bound * m := by
  intro m
  induction m with
  | zero =>
    intro a ha _
    refine ⟨0, ?_, Nat.le_refl 0, Nat.zero_le 0⟩
    rw [Function.iterate_zero_apply, Nat.add_zero]
    exact (Nat.mod_eq_of_lt ha).symm
  | succ n ih =>
    intro a ha hg
    obtain ⟨t, hT, hmt, htb⟩ := ih a ha (fun k hk => hg k (Nat.lt_succ_of_lt hk))
    obtain ⟨_, sz, hdec⟩ := hg n (Nat.lt_succ_self n)
    obtain ⟨hsz1, hsz2⟩ := hsz _ _ _ hdec
    have hstep : c.stepAddr (c.stepAddr^[n] a) = (c.stepAddr^[n] a + sz) % 2 ^ 64 := by
      simp [CpuModel.stepAddr, CpuModel.sizeAt, hdec]
    refine ⟨t + sz, ?_, ?_, ?_⟩
    · rw [Function.iterate_succ_apply', hstep, hT, Nat.mod_add_mod, Nat.add_assoc]
    · omega
    · calc t + sz ≤ bound * n + bound := Nat.add_le_add htb hsz2
        _ = bound * (n + 1) := (Nat.mul_succ bound n).symm

/-- The step map cannot return to an earlier address of the run while the
total decoded size in between stays below 2^64: the loop would have had to
wrap the full 64-bit address space. -/
theorem no_small_cycle (c : CpuModel) (addr bound i j : Nat)
    (ha : addr < 2 ^ 64)
    (hsz : ∀ a n cf, c.decodeAt a = some (n, cf) → 1 ≤ n ∧ n ≤ bound)
    (hgood : ∀ k, k < j → c.goodStep (c.stepAddr^[k] addr))
    (hij : i < j) (hlt : bound * (j - i) < 2 ^ 64)
    (heq : c.stepAddr^[i] addr = c.stepAddr^[j] addr) : False := by
  have hAi : c.stepAddr^[i] addr < 2 ^ 64 := stepAddr_iterate_lt c addr ha i
  have hgood2 : ∀ k, k < j - i → c.goodStep (c.stepAddr^[k] (c.stepAddr^[i] addr)) := by
    intro k hk
    rw [← Function.iterate_add_apply]
    exact hgood (k + i) (by omega)
  obtain ⟨t, hT, hmt, htb⟩ := chain_sum c bound hsz (j - i) _ hAi hgood2
  have hji : c.stepAddr^[j - i] (c.stepAddr^[i] addr) = c.stepAddr^[j] addr := by
    rw [← Function.iterate_add_apply]
    congr 1
    omega
  rw [hji, ← heq] at hT
  have hpow : (2 : Nat) ^ 64 = 18446744073709551616 := by norm_num
  rw [hpow] at hT hAi hlt
  have h1 : t ≤ bound * (j - i) := htb
  omega

/-- C2 corrected: the unbounded driver terminates from any 64-bit start
address provided, beyond the decode step never yielding a zero-size
instruction, the decoded sizes are bounded by some `bound`, the defined
addresses all lie in a finite set `D`, and `bound * (D.card + 1)` is below
2^64 — so that the loop cannot cycle through the address space.  (Without
the extra bounds the loop need not terminate, see the counterexample.) -/
theorem c2_termination (s : Architecture) (c : CpuModel) (addr bound : Nat)
    (D : Finset Nat) (hc : s.cpu = some c) (ha : addr < 2 ^ 64)
    (hdef : ∀ a, (c.mem a).isSome = true → a ∈ D)
    (hsz : ∀ a n cf, c.decodeAt a = some (n, cf) → 1 ≤ n ∧ n ≤ bound)
    (hbound : bound * (D.card + 1) < 2 ^ 64) :
    s.TerminatesFrom addr := by
  by_contra hterm
  have hnone : ∀ f, s.disassemblyAll f addr = none := by
    intro f
    rcases h : s.disassemblyAll f addr with _ | v
    · rfl
    · exact absurd ⟨f, by simp [h]⟩ hterm
  have hgood : ∀ k, k < D.card + 2 → c.goodStep (c.stepAddr^[k] addr) :=
    disassemblyAll_none_good s c hc (D.card + 2) addr (hnone _)
  have hmaps : ∀ k ∈ Finset.range (D.card + 2), c.stepAddr^[k] addr ∈ D :=
    fun k hk => hdef _ (hgood k (Finset.mem_range.mp hk)).1
  have hcard : D.card < (Finset.range (D.card + 2)).card := by
    simp
  obtain ⟨i, hi, j, hj, hij, heq⟩ :=
    Finset.exists_ne_map_eq_of_card_lt_of_maps_to hcard hmaps
  rw [Finset.mem_range] at hi hj
  rcases Nat.lt_or_ge i j with h | h
  · exact no_small_cycle c addr bound i j ha hsz
      (fun k hk => hgood k (by omega)) h
      (lt_of_le_of_lt (Nat.mul_le_mul (Nat.le_refl bound) (by omega)) hbound) heq
  · have hji : j < i := by omega
    exact no_small_cycle c addr bound j i ha hsz
      (fun k hk => hgood k (by omega)) hji
      (lt_of_le_of_lt (Nat.mul_le_mul (Nat.le_refl bound) (by omega)) hbound) heq.symm

/-- Witness for the corrected C2: the sample model has its ten defined
addresses inside `Finset.range 10`, decode sizes between 1 and 4, and
4 * 11 is far below 2^64, so the driver terminates from address 0. -/
theorem c2_witness :
    (demoArch.cpu = some demoCpu ∧ (0 : Nat) < 2 ^ 64 ∧
      (∀ a, (demoCpu.mem a).isSome = true → a ∈ Finset.range 10) ∧
      (∀ a n cf, demoCpu.decodeAt a = some (n, cf) → 1 ≤ n ∧ n ≤ 4) ∧
      4 * ((Finset.range 10).card + 1) < 2 ^ 64) ∧
    demoArch.TerminatesFrom 0 := by
  have hdef : ∀ a, (demoCpu.mem a).isSome = true → a ∈ Finset.range 10 := by
    intro a ha
    by_cases h : a < 10
    · simpa [Finset.mem_range] using h
    · simp [demoCpu, h] at ha
  have hsz : ∀ a n cf, demoCpu.decodeAt a = some (n, cf) → 1 ≤ n ∧ n ≤ 4 := by
    intro a n cf h
    simp only [CpuModel.decodeAt, demoCpu] at h
    split at h <;> (obtain ⟨h1, _⟩ := Option.some.inj h |> Prod.mk.inj; omega)
  have hcard : 4 * ((Finset.range 10).card + 1) < 2 ^ 64 := by
    norm_num
  exact ⟨⟨rfl, by norm_num, hdef, hsz, hcard⟩,
    c2_termination demoArch demoCpu 0 4 (Finset.range 10) rfl (by norm_num)
      hdef hsz hcard⟩

end Triton
